import Mathlib

/-!
Verification of the LazyDP `DPOptimizer` (src/opacus/optimizers/optimizer.py).

The development shallowly embeds the pieces of the optimizer that the
claims are about:

* sparse embedding gradients (`torch.sparse_coo_tensor` + `.coalesce()`)
  as association lists of (row index, value) pairs, with values drawn from
  an arbitrary additive commutative monoid (the code's dense row vectors
  under elementwise addition);
* the delayed-noise merge of `do_delayed_noise_update`;
* the per-sample clipping arithmetic of `clip_and_accumulate` over `ℚ`;
* the LazyDP bookkeeping state (`cnt_iter`, `HT`, `lS_i_nxt`,
  `stds_for_delayed_noise`) and the functions `set_emb_to_noise_update`
  and `set_HT_increase_cnt_iter`;
* the driver-level state handling (`clip_and_accumulate`/`add_noise`/
  `zero_grad`/`pre_step`) at the level of per-parameter gradient records,
  with Python exceptions modelled by `Except`.
-/

namespace LazyDP

/-! ## Sparse gradients and coalescing

A sparse embedding gradient is a list of (row index, row value) pairs,
possibly with repeated indices.  `torch.Tensor.coalesce` sorts the
indices, removes duplicates, and sums the values of duplicate indices;
`coalesce` below reproduces that for indices below `numRows`
(out-of-range indices are rejected by torch at construction time). -/

variable {M : Type} [AddCommMonoid M]

/-- Sum of all value contributions a sparse gradient makes to row `r`
(the semantic content of one row of the dense equivalent). -/
def rowTotal (g : List (ℕ × M)) (r : ℕ) : M :=
  ((g.filter (fun x => x.1 = r)).map (fun x => x.2)).sum

/-- `torch.sparse_coo_tensor(indices, values, (numRows, dim)).coalesce()`:
the result lists each populated row exactly once, in increasing index
order, holding the sum of all contributions to that row. -/
def coalesce (numRows : ℕ) (g : List (ℕ × M)) : List (ℕ × M) :=
  ((List.range numRows).filter (fun r => g.any (fun x => x.1 = r))).map
    (fun r => (r, rowTotal g r))

/-- The value a sparse gradient stores for row `r` (first occurrence),
`none` when the row is absent. -/
def entry (g : List (ℕ × M)) (r : ℕ) : Option M :=
  (g.find? (fun x => x.1 = r)).map (fun x => x.2)

/-- One table of `do_delayed_noise_update`: when `lS_i_nxt` is present,
the freshly drawn delayed-noise rows (indices `lS_i_nxt[i]`, values
`noise`) are concatenated in front of the raw real-gradient sparse
tensor, and the combined tensor is coalesced; when `lS_i_nxt` is `None`,
the raw gradient alone is coalesced (`noisy_grad = self.params[i].grad`
followed by the unconditional coalesce step). -/
def do_delayed_noise_update_table (numRows : ℕ) (lSiNxt : Option (List ℕ))
    (noise : List M) (rawGrad : List (ℕ × M)) : List (ℕ × M) :=
  match lSiNxt with
  | some lSi => coalesce numRows (lSi.zip noise ++ rawGrad)
  | none => coalesce numRows rawGrad

lemma rowTotal_append (a b : List (ℕ × M)) (r : ℕ) :
    rowTotal (a ++ b) r = rowTotal a r + rowTotal b r := by
  simp [rowTotal, List.filter_append]

lemma find?_eq_self (l : List ℕ) (r : ℕ) :
    l.find? (fun x => x = r) = if r ∈ l then some r else none := by
  induction l with
  | nil => simp
  | cons a l ih =>
    by_cases h : a = r
    · subst h; simp [List.find?_cons]
    · simp [List.find?_cons, h, ih, Ne.symm h]

lemma entry_coalesce (numRows : ℕ) (g : List (ℕ × M)) (r : ℕ)
    (hr : r < numRows) (hp : g.any (fun x => x.1 = r)) :
    entry (coalesce numRows g) r = some (rowTotal g r) := by
  unfold entry coalesce
  rw [List.find?_map]
  have : (Function.comp (fun x : ℕ × M => decide (x.1 = r))
      (fun r => (r, rowTotal g r))) = fun x : ℕ => decide (x = r) := by
    funext x; simp
  rw [this, find?_eq_self]
  have hmem : r ∈ (List.range numRows).filter (fun r => g.any (fun x => x.1 = r)) := by
    simp [List.mem_filter, List.mem_range, hr, hp]
  simp [hmem]

/-! ## Per-sample clipping arithmetic (`clip_and_accumulate`)

Both clipping paths compute
`per_sample_clip_factor = (max_grad_norm / (per_sample_norms + 1e-6)).clamp(max=1.0)`
and scale each sample's gradient by its factor.  Scalars are modelled by
`ℚ`; `clamp(max=1.0)` is `min · 1`. -/

/-- The clip factor of one sample, from optimizer.py lines 456-458 / 511-513. -/
def per_sample_clip_factor (max_grad_norm per_sample_norm : ℚ) : ℚ :=
  min (max_grad_norm / (per_sample_norm + 1 / 1000000)) 1

/-- Squared L2 norm of a flattened per-sample gradient. -/
def normSq (g : List ℚ) : ℚ :=
  (g.map (fun x => x ^ 2)).sum

/-- Scaling a per-sample gradient by its clip factor
(`contract("i,i...")` / `einsum` restricted to one sample). -/
def scaleVec (c : ℚ) (g : List ℚ) : List ℚ :=
  g.map (fun x => c * x)

lemma normSq_nonneg (g : List ℚ) : 0 ≤ normSq g := by
  unfold normSq
  induction g with
  | nil => simp
  | cons a l ih => simpa using add_nonneg (sq_nonneg a) ih

lemma normSq_scaleVec (c : ℚ) (g : List ℚ) :
    normSq (scaleVec c g) = c ^ 2 * normSq g := by
  unfold normSq scaleVec
  induction g with
  | nil => simp
  | cons a l ih =>
    simp only [List.map_cons, List.sum_cons, List.map_map] at *
    rw [ih]; ring

/-! ## LazyDP bookkeeping state

`DPOptimizer.__init__` (MODE_LAZYDP branch) creates `cnt_iter = 0`, one
integer history row `HT[i]` of zeros per embedding table, the per-table
delayed-noise std vectors `stds_for_delayed_noise` and the next-batch
index sets `lS_i_nxt` (set to `None` by `set_lS_i(None)`).  History
entries and the counter are Python/torch integers, modelled by `ℤ`;
the std vectors are floats, modelled by `ℝ`. -/

/-- The LazyDP-specific fields of `DPOptimizer`. -/
structure LazyState where
  cntIter : ℤ
  HT : List (List ℤ)
  lSiNxt : Option (List (List ℕ))
  stds : List (List ℝ)

/-- `self.HT[i][r]` (out-of-range access modelled as 0, the initial value). -/
def getHT (s : LazyState) (i r : ℕ) : ℤ :=
  (s.HT.getD i []).getD r 0

/-- `set_emb_to_noise_update`: if `lS_i_nxt is None` return immediately;
otherwise for each table `i` set
`stds_for_delayed_noise[i] = ((cnt_iter - HT[i][lS_i_nxt[i]])**(1/2)) * noise_multiplier * max_grad_norm`,
an elementwise square root over the gathered history entries. -/
noncomputable def set_emb_to_noise_update (noise_multiplier max_grad_norm : ℝ)
    (s : LazyState) : LazyState :=
  match s.lSiNxt with
  | none => s
  | some lS =>
    { s with stds := (List.range lS.length).map (fun i =>
        (lS.getD i []).map (fun r =>
          Real.sqrt ((s.cntIter : ℝ) - (getHT s i r : ℝ)) *
            noise_multiplier * max_grad_norm)) }

/-- Scatter write `HT[i][lS_i_nxt[i]] = cnt_iter` on one history row:
every position listed in `idxs` receives `v`, all others keep their
value. -/
def scatterRow (row : List ℤ) (idxs : List ℕ) (v : ℤ) : List ℤ :=
  (List.range row.length).map (fun r => if r ∈ idxs then v else row.getD r 0)

/-- `set_HT_increase_cnt_iter`: for each table `i` in
`range(len(lS_i_nxt))` write `HT[i][lS_i_nxt[i]] = cnt_iter`, then
`cnt_iter += 1`.  The guard `i < lS.length` mirrors the loop bound (the
code asserts `len(lS_i_nxt) == len(self.module.emb_l)`).  The `none`
case is not reachable in the code (it would fail on `len(None)`). -/
def set_HT_increase_cnt_iter (s : LazyState) : LazyState :=
  match s.lSiNxt with
  | none => s
  | some lS =>
    { s with
      HT := (List.range s.HT.length).map (fun i =>
        if i < lS.length then scatterRow (s.HT.getD i []) (lS.getD i []) s.cntIter
        else s.HT.getD i []),
      cntIter := s.cntIter + 1 }

lemma getD_map_range {α : Type} (n : ℕ) (f : ℕ → α) (i : ℕ) (hi : i < n)
    (d : α) : (((List.range n).map f).getD i d) = f i := by
  rw [List.getD_eq_getElem?_getD, List.getElem?_map, List.getElem?_range hi]
  rfl

lemma getHT_set_HT (s : LazyState) (lS : List (List ℕ))
    (h : s.lSiNxt = some lS) (i r : ℕ) (hi : i < s.HT.length)
    (hil : i < lS.length) (hr : r < (s.HT.getD i []).length) :
    getHT (set_HT_increase_cnt_iter s) i r =
      if r ∈ lS.getD i [] then s.cntIter else getHT s i r := by
  unfold set_HT_increase_cnt_iter
  rw [h]
  simp only [getHT]
  rw [getD_map_range _ _ _ hi, if_pos hil]
  unfold scatterRow
  rw [getD_map_range _ _ _ hr]

/-! ## Driver-level model

The per-parameter gradient records and the optimizer entry points, at the
value level: each tensor is represented by one rational summarising its
content, paired with its `_processed` flag where the code attaches one.
Python exceptions are modelled by `Except DPError`. -/

/-- `config.dpsgd_mode` (MODE_SGD never reaches DPOptimizer). -/
inductive Mode
  | DPSGD_B
  | DPSGD_R
  | DPSGD_F
  | LAZYDP
  | EANA
  deriving DecidableEq

/-- The exceptions the modelled paths can raise. -/
inductive DPError
  | gradientsNotCleared
  | noGradSample
  | excludeRNNs
  | inconsistentSteps
  | assertionFailed
  | typeError
  deriving DecidableEq

/-- One parameter's optimizer-visible gradient state: `p.grad_sample` is
a list of per-batch tensors each carrying a `_processed` flag
(`hasattr(x, "_processed")` modelled as the flag being `true`);
`p.summed_grad` carries its own flag; `p.grad` is plain.  `isEmb` records
whether the parameter lives in host memory (`p.device == cpu`, an
embedding table). -/
structure Param where
  gradSample : Option (List (ℚ × Bool))
  summedGrad : Option (ℚ × Bool)
  grad : Option ℚ
  isEmb : Bool
  deriving DecidableEq

/-- `contract("i,i...", per_sample_clip_factor, grad_sample)` at the
value level: the clip-weighted sum over samples. -/
def clipReduce (clipFactors vals : List ℚ) : ℚ :=
  (List.zipWith (fun c g => c * g) clipFactors vals).sum

/-- `clip_and_accumulate`.  MODE_DPSGD_B: per parameter, first
`_check_processed_flag(p.grad_sample)` (ValueError "Gradients haven't
been cleared …" when any batch tensor is marked), then the clipped
reduction is computed; if `p.summed_grad` is not `None` the code runs
`p.summed_grad += grad` and immediately fails `assert False, "Exclude
RNNs"`, otherwise `p.summed_grad = grad`; finally
`_mark_as_processed(p.grad_sample)`.  All other modes (R, F, LazyDP,
EANA): no processed-flag check — the clipped loss is re-backpropagated
(`backwardGrads`, the external AD result) and each parameter gets
`p.summed_grad = p.grad; p.grad = None`. -/
def clip_and_accumulate (mode : Mode) (clipFactors backwardGrads : List ℚ)
    (ps : List Param) : Except DPError (List Param) :=
  match mode with
  | Mode.DPSGD_B =>
    ps.mapM (fun p =>
      match p.gradSample with
      | none => Except.error DPError.noGradSample
      | some ts =>
        if ts.any (fun t => t.2) then Except.error DPError.gradientsNotCleared
        else
          match p.summedGrad with
          | some _ => Except.error DPError.excludeRNNs
          | none =>
            Except.ok { p with
              summedGrad :=
                some (clipReduce clipFactors (ts.map (fun t => t.1)), false),
              gradSample := some (ts.map (fun t => (t.1, true))) })
  | _ =>
    Except.ok ((ps.zip backwardGrads).map (fun q =>
      { q.1 with summedGrad := some (q.2, false), grad := none }))

/-- `add_noise`: per parameter, `_check_processed_flag(p.summed_grad)`;
embedding parameters under MODE_LAZYDP bypass noise (`p.grad =
p.summed_grad`), every other parameter/mode combination receives its
Gaussian draw added onto the summed gradient; finally
`_mark_as_processed(p.summed_grad)`. -/
def add_noise (mode : Mode) (noises : List ℚ) (ps : List Param) :
    Except DPError (List Param) :=
  (ps.zip noises).mapM (fun q =>
    match q.1.summedGrad with
    | none => Except.error DPError.typeError
    | some sg =>
      if sg.2 then Except.error DPError.gradientsNotCleared
      else Except.ok { q.1 with
        grad := if q.1.isEmb ∧ mode = Mode.LAZYDP then some sg.1
                else some (sg.1 + q.2),
        summedGrad := some (sg.1, true) })

/-- The driver's mutable step bookkeeping: the parameters, the
`_step_skip_queue` and `_is_last_step_skipped`. -/
structure DriverState where
  params : List Param
  skipQueue : List Bool
  isLastStepSkipped : Bool
  deriving DecidableEq

/-- `signal_skip_step`: append the flag to `_step_skip_queue`. -/
def signal_skip_step (doSkip : Bool) (s : DriverState) : DriverState :=
  { s with skipQueue := s.skipQueue ++ [doSkip] }

/-- `_check_skip_next_step` with `pop_next=True`: pop the head of the
queue, `False` when empty. -/
def check_skip_next_step : List Bool → Bool × List Bool
  | [] => (false, [])
  | b :: rest => (b, rest)

/-- `zero_grad`: the `set_to_none` argument is overwritten with `True`
before use, so `p.grad` is always set to `None`; `p.grad_sample` is
cleared only under MODE_DPSGD_B; `p.summed_grad` is cleared only when
the last step was not skipped. -/
def zero_grad (mode : Mode) (setToNone : Bool) (s : DriverState) : DriverState :=
  { s with params := s.params.map (fun p =>
      { p with
        gradSample := if mode = Mode.DPSGD_B then none else p.gradSample,
        summedGrad := if s.isLastStepSkipped then p.summedGrad else none,
        grad := none }) }

/-- `pre_step`: clip-and-accumulate, then pop the skip queue; on a skip,
record `_is_last_step_skipped = True` and return `False` (no noise, no
underlying step); otherwise add noise and return `True`.  (The LazyDP
delayed-noise resolution that follows `add_noise` only rewrites `p.grad`
of embedding parameters and is modelled separately at the sparse level
by `do_delayed_noise_update_table`.) -/
def pre_step (mode : Mode) (clipFactors backwardGrads noises : List ℚ)
    (s : DriverState) : Except DPError (DriverState × Bool) := do
  let ps ← clip_and_accumulate mode clipFactors backwardGrads s.params
  let skip := check_skip_next_step s.skipQueue
  if skip.1 then
    Except.ok (⟨ps, skip.2, true⟩, false)
  else do
    let ps2 ← add_noise mode noises ps
    Except.ok (⟨ps2, skip.2, false⟩, true)

/-- `accumulated_iterations`: the body starts with
`return 1  # No exceptions in this research`; everything after it is
unreachable. -/
def accumulated_iterations (ps : List Param) : Except DPError ℕ :=
  Except.ok 1

/-- The statements of `accumulated_iterations` situated after its early
`return 1`, as written: collect `len(p.grad_sample)` per parameter and
raise ValueError "Number of accumulated steps is inconsistent across
parameters" when they differ.  The code never executes them. -/
def accumulated_iterations_unreachable (ps : List Param) :
    Except DPError ℕ := do
  let vals ← ps.mapM (fun p =>
    match p.gradSample with
    | none => Except.error DPError.noGradSample
    | some ts => Except.ok ts.length)
  if vals.dedup.length > 1 then Except.error DPError.inconsistentSteps
  else Except.ok (vals.headD 1)

/-- The slice of `config` that `_generate_noise` reads. -/
structure NoiseConfig where
  is_debugging : Bool
  debugging_type : String

/-- `_generate_noise`: `std == 0` hits `assert(False)` before anything
else; `secure_mode` hits `assert False, "Do not consider secure_mode"`;
under debugging, `without_noise`/`without_noise_clipping` return a zero
tensor, `one_as_noise` a ones tensor, any other debugging type asserts;
otherwise (production) a Gaussian draw of the reference shape is
returned — `draw` stands for the sample the RNG path produces
(`custom_api_cpp.normal_multi_thread` on host memory, `torch.normal`
elsewhere). -/
def generate_noise (cfg : NoiseConfig) (std : ℚ) (refLen : ℕ)
    (secure_mode : Bool) (draw : List ℚ) : Except DPError (List ℚ) :=
  if std = 0 then Except.error DPError.assertionFailed
  else if secure_mode then Except.error DPError.assertionFailed
  else if cfg.is_debugging ∧ (cfg.debugging_type = "without_noise" ∨
      cfg.debugging_type = "without_noise_clipping") then
    Except.ok (List.replicate refLen 0)
  else if cfg.is_debugging ∧ cfg.debugging_type = "one_as_noise" then
    Except.ok (List.replicate refLen 1)
  else if cfg.is_debugging then Except.error DPError.assertionFailed
  else Except.ok draw

/-! ## Claim theorems -/

lemma getD_map_lt {α β : Type} (f : α → β) (l : List α) (i : ℕ)
    (hi : i < l.length) (d : β) (d' : α) :
    (l.map f).getD i d = f (l.getD i d') := by
  rw [List.getD_eq_getElem (l.map f) d (by simpa using hi),
    List.getElem_map, List.getD_eq_getElem l d' hi]

/-- C1: for every embedding table `i` and every row `r` listed in
`lS_i_nxt[i]`, `set_emb_to_noise_update` computes the delayed-noise
standard deviation of `r` as
`sqrt(cnt_iter - HT[i][r]) * noise_multiplier * max_grad_norm`, so the
injected noise variance (the square of that standard deviation) equals
`(noise_multiplier * max_grad_norm)^2 * (cnt_iter - HT[i][r])`. -/
theorem delayed_noise_std_and_variance (noise_multiplier max_grad_norm : ℝ)
    (s : LazyState) (lS : List (List ℕ)) (h : s.lSiNxt = some lS)
    (i r : ℕ) (hi : i < lS.length) (hr : r ∈ lS.getD i [])
    (hinv : getHT s i r ≤ s.cntIter) :
    ((set_emb_to_noise_update noise_multiplier max_grad_norm s).stds.getD i []).getD
        ((lS.getD i []).indexOf r) 0 =
      Real.sqrt ((s.cntIter : ℝ) - (getHT s i r : ℝ)) *
        noise_multiplier * max_grad_norm ∧
    (((set_emb_to_noise_update noise_multiplier max_grad_norm s).stds.getD i []).getD
        ((lS.getD i []).indexOf r) 0) ^ 2 =
      (noise_multiplier * max_grad_norm) ^ 2 *
        ((s.cntIter : ℝ) - (getHT s i r : ℝ)) := by
  have hstds : (set_emb_to_noise_update noise_multiplier max_grad_norm s).stds =
      (List.range lS.length).map (fun i =>
        (lS.getD i []).map (fun r =>
          Real.sqrt ((s.cntIter : ℝ) - (getHT s i r : ℝ)) *
            noise_multiplier * max_grad_norm)) := by
    unfold set_emb_to_noise_update
    rw [h]
  have hj : (lS.getD i []).indexOf r < (lS.getD i []).length :=
    List.indexOf_lt_length.2 hr
  have hhit : ((set_emb_to_noise_update noise_multiplier max_grad_norm s).stds.getD i []).getD
      ((lS.getD i []).indexOf r) 0 =
      Real.sqrt ((s.cntIter : ℝ) - (getHT s i r : ℝ)) *
        noise_multiplier * max_grad_norm := by
    rw [hstds, getD_map_range _ _ _ hi, getD_map_lt _ _ _ hj _ r]
    rw [List.getD_eq_getElem _ r hj, List.getElem_indexOf]
  refine ⟨hhit, ?_⟩
  rw [hhit]
  have he : (0 : ℝ) ≤ (s.cntIter : ℝ) - (getHT s i r : ℝ) := by
    rw [sub_nonneg]
    exact_mod_cast hinv
  rw [mul_pow, mul_pow, Real.sq_sqrt he]
  ring

/-- Witness for C1 at a concrete state: one table of two rows,
`HT[0] = [1, 0]`, `cnt_iter = 3`, next rows `[1]`: the delayed variance
for row 1 is `(1*1)^2 * (3 - 0)`. -/
theorem delayed_noise_std_and_variance_witness :
    (1 : ℕ) ∈ ([[1]] : List (List ℕ)).getD 0 [] ∧
    (((set_emb_to_noise_update 1 1 ⟨3, [[1, 0]], some [[1]], []⟩).stds.getD 0 []).getD
        ((([[1]] : List (List ℕ)).getD 0 []).indexOf 1) 0) ^ 2 =
      ((1 : ℝ) * 1) ^ 2 *
        (((⟨3, [[1, 0]], some [[1]], []⟩ : LazyState).cntIter : ℝ) -
          (getHT ⟨3, [[1, 0]], some [[1]], []⟩ 0 1 : ℝ)) :=
  ⟨by decide,
    (delayed_noise_std_and_variance 1 1 ⟨3, [[1, 0]], some [[1]], []⟩ [[1]]
      rfl 0 1 (by decide) (by decide) (by decide)).2⟩

/-- C2: one call to `set_HT_increase_cnt_iter` writes the current
`cnt_iter` into `HT[i][r]` exactly when `r ∈ lS_i_nxt[i]` (leaving every
other entry unchanged), then increments `cnt_iter` exactly once — the
written value is the pre-increment counter, so the increment happens
after the HistoryTable writes.  Under the invariant
`HT[i][r] ≤ cnt_iter`, the entry is non-decreasing and the invariant is
preserved, giving history monotonicity over iterations. -/
theorem history_write_iff_and_monotone (s : LazyState) (lS : List (List ℕ))
    (h : s.lSiNxt = some lS) (i r : ℕ) (hi : i < s.HT.length)
    (hil : i < lS.length) (hr : r < (s.HT.getD i []).length)
    (hinv : getHT s i r ≤ s.cntIter) :
    (set_HT_increase_cnt_iter s).cntIter = s.cntIter + 1 ∧
    getHT (set_HT_increase_cnt_iter s) i r =
      (if r ∈ lS.getD i [] then s.cntIter else getHT s i r) ∧
    getHT s i r ≤ getHT (set_HT_increase_cnt_iter s) i r ∧
    getHT (set_HT_increase_cnt_iter s) i r ≤ (set_HT_increase_cnt_iter s).cntIter := by
  have hcnt : (set_HT_increase_cnt_iter s).cntIter = s.cntIter + 1 := by
    unfold set_HT_increase_cnt_iter
    rw [h]
  have hw := getHT_set_HT s lS h i r hi hil hr
  refine ⟨hcnt, hw, ?_, ?_⟩
  · rw [hw]
    by_cases hm : r ∈ lS.getD i []
    · rw [if_pos hm]; exact hinv
    · rw [if_neg hm]
  · rw [hw, hcnt]
    by_cases hm : r ∈ lS.getD i []
    · rw [if_pos hm]; omega
    · rw [if_neg hm]; omega

/-- Witness for C2 at a concrete state: `cnt_iter = 5`, one table
`HT[0] = [2, 4]`, next rows `[0]`: row 0 is written to 5, row 1 keeps 4,
and the counter becomes 6. -/
theorem history_write_iff_and_monotone_witness :
    (set_HT_increase_cnt_iter ⟨5, [[2, 4]], some [[0]], []⟩).cntIter = 5 + 1 ∧
    getHT (set_HT_increase_cnt_iter ⟨5, [[2, 4]], some [[0]], []⟩) 0 0 =
      (if (0 : ℕ) ∈ ([[0]] : List (List ℕ)).getD 0 [] then (5 : ℤ)
        else getHT ⟨5, [[2, 4]], some [[0]], []⟩ 0 0) ∧
    getHT ⟨5, [[2, 4]], some [[0]], []⟩ 0 0 ≤
      getHT (set_HT_increase_cnt_iter ⟨5, [[2, 4]], some [[0]], []⟩) 0 0 ∧
    getHT (set_HT_increase_cnt_iter ⟨5, [[2, 4]], some [[0]], []⟩) 0 0 ≤
      (set_HT_increase_cnt_iter ⟨5, [[2, 4]], some [[0]], []⟩).cntIter :=
  history_write_iff_and_monotone ⟨5, [[2, 4]], some [[0]], []⟩ [[0]] rfl 0 0
    (by decide) (by decide) (by decide) (by decide)

/-- C3: in the delayed-noise merge, the coalesced result at any populated
row is the sum of the delayed-noise contributions for that row (rows of
`lS_i_nxt[i]`) and the real-gradient contributions for that row — in
particular a row appearing in both receives both. -/
theorem merge_sums_both_contributions {M : Type} [AddCommMonoid M]
    (numRows : ℕ) (lSi : List ℕ) (noise : List M) (rawGrad : List (ℕ × M))
    (r : ℕ) (hr : r < numRows)
    (hp : (lSi.zip noise ++ rawGrad).any (fun x => x.1 = r) = true) :
    entry (do_delayed_noise_update_table numRows (some lSi) noise rawGrad) r =
      some (rowTotal (lSi.zip noise) r + rowTotal rawGrad r) := by
  unfold do_delayed_noise_update_table
  rw [entry_coalesce _ _ _ hr hp, rowTotal_append]

/-- Witness for C3, the spec's merge scenario: real gradient `[1,1]` at
row 7, delayed-noise draw `[2,2]` at row 7; the merged coalesced value
at row 7 is `[3,3]`. -/
theorem merge_sums_both_contributions_witness :
    (7 : ℕ) < 10 ∧
    entry (do_delayed_noise_update_table 10 (some [7])
        [((2 : ℚ), (2 : ℚ))] [(7, ((1 : ℚ), (1 : ℚ)))]) 7 =
      some ((3 : ℚ), (3 : ℚ)) :=
  ⟨by decide,
    (merge_sums_both_contributions 10 [7] [((2 : ℚ), (2 : ℚ))]
      [(7, ((1 : ℚ), (1 : ℚ)))] 7 (by decide) (by decide)).trans
      (by simp [rowTotal, Prod.ext_iff]; norm_num)⟩

/-- C5: the per-sample clip factor is `min(1, max_grad_norm/(norm + 1e-6))`,
and scaling a per-sample gradient whose L2 norm is `norm` by it bounds
the post-clip L2 norm by `max_grad_norm` (squared-norm form over `ℚ` and
norm form over `ℝ`). -/
theorem clip_factor_bounds_norm (max_grad_norm norm : ℚ) (g : List ℚ)
    (hmgn : 0 ≤ max_grad_norm) (hn : 0 ≤ norm) (hg : norm ^ 2 = normSq g) :
    per_sample_clip_factor max_grad_norm norm =
      min 1 (max_grad_norm / (norm + 1 / 1000000)) ∧
    normSq (scaleVec (per_sample_clip_factor max_grad_norm norm) g) ≤
      max_grad_norm ^ 2 ∧
    Real.sqrt ((normSq (scaleVec (per_sample_clip_factor max_grad_norm norm) g) : ℚ) : ℝ) ≤
      (max_grad_norm : ℝ) := by
  have hden : (0 : ℚ) < norm + 1 / 1000000 := by positivity
  have hc0 : 0 ≤ per_sample_clip_factor max_grad_norm norm := by
    unfold per_sample_clip_factor
    exact le_min (div_nonneg hmgn hden.le) zero_le_one
  have hcn : per_sample_clip_factor max_grad_norm norm * norm ≤ max_grad_norm := by
    have h1 : per_sample_clip_factor max_grad_norm norm ≤
        max_grad_norm / (norm + 1 / 1000000) := min_le_left _ _
    have h2 : per_sample_clip_factor max_grad_norm norm * norm ≤
        max_grad_norm / (norm + 1 / 1000000) * norm :=
      mul_le_mul_of_nonneg_right h1 hn
    refine h2.trans ?_
    rw [div_mul_eq_mul_div, div_le_iff₀ hden]
    have : norm ≤ norm + 1 / 1000000 := by linarith
    exact mul_le_mul_of_nonneg_left this hmgn
  have hsq : normSq (scaleVec (per_sample_clip_factor max_grad_norm norm) g) ≤
      max_grad_norm ^ 2 := by
    rw [normSq_scaleVec, ← hg, ← mul_pow]
    exact pow_le_pow_left₀ (mul_nonneg hc0 hn) hcn 2
  refine ⟨min_comm _ _, hsq, ?_⟩
  have hcast : ((normSq (scaleVec (per_sample_clip_factor max_grad_norm norm) g) : ℚ) : ℝ) ≤
      ((max_grad_norm : ℝ)) ^ 2 := by
    exact_mod_cast hsq
  calc Real.sqrt ((normSq (scaleVec (per_sample_clip_factor max_grad_norm norm) g) : ℚ) : ℝ)
      ≤ Real.sqrt ((max_grad_norm : ℝ) ^ 2) := Real.sqrt_le_sqrt hcast
    _ = (max_grad_norm : ℝ) := by
        rw [Real.sqrt_sq (by exact_mod_cast hmgn)]

/-- Witness for C5 at `max_grad_norm = 1`, `norm = 2`, gradient `[2]`:
the clipped squared norm is below `1`. -/
theorem clip_factor_bounds_norm_witness :
    (0 : ℚ) ≤ 1 ∧ (0 : ℚ) ≤ 2 ∧ (2 : ℚ) ^ 2 = normSq [2] ∧
    normSq (scaleVec (per_sample_clip_factor 1 2) [2]) ≤ (1 : ℚ) ^ 2 :=
  ⟨by norm_num, by norm_num, by norm_num [normSq],
    (clip_factor_bounds_norm 1 2 [2] (by norm_num) (by norm_num)
      (by norm_num [normSq])).2.1⟩

/-- C9: `_generate_noise` with `std == 0` fails on `assert(False)` in the
production (non-debug) path instead of silently returning zeros; in the
production path with `std ≠ 0` the result is the raw Gaussian draw
(never a substituted constant tensor), while all-zeros and all-ones
results arise exactly in the explicit debug modes. -/
theorem generate_noise_zero_std_fatal (cfg : NoiseConfig) (std : ℚ)
    (refLen : ℕ) (draw : List ℚ) :
    (cfg.is_debugging = false →
      generate_noise cfg 0 refLen false draw =
        Except.error DPError.assertionFailed) ∧
    (cfg.is_debugging = false → std ≠ 0 →
      generate_noise cfg std refLen false draw = Except.ok draw) ∧
    (cfg.is_debugging = true →
      (cfg.debugging_type = "without_noise" ∨
        cfg.debugging_type = "without_noise_clipping") → std ≠ 0 →
      generate_noise cfg std refLen false draw =
        Except.ok (List.replicate refLen 0)) ∧
    (cfg.is_debugging = true → cfg.debugging_type = "one_as_noise" → std ≠ 0 →
      generate_noise cfg std refLen false draw =
        Except.ok (List.replicate refLen 1)) := by
  refine ⟨fun hdbg => ?_, fun hdbg hstd => ?_, fun hdbg hty hstd => ?_,
    fun hdbg hty hstd => ?_⟩
  · unfold generate_noise
    rw [if_pos rfl]
  · unfold generate_noise
    rw [if_neg hstd, if_neg (by simp), if_neg (by simp [hdbg]),
      if_neg (by simp [hdbg]), if_neg (by simp [hdbg])]
  · unfold generate_noise
    rw [if_neg hstd, if_neg (by simp), if_pos ⟨hdbg, hty⟩]
  · unfold generate_noise
    have hne : ¬(cfg.debugging_type = "without_noise" ∨
        cfg.debugging_type = "without_noise_clipping") := by
      rw [hty]
      decide
    rw [if_neg hstd, if_neg (by simp), if_neg (by simp [hne]),
      if_pos ⟨hdbg, hty⟩]

/-- Witness for C9: in production, `std = 0` raises and `std = 1` yields
the raw draw; the two debug modes yield the constant tensors. -/
theorem generate_noise_zero_std_fatal_witness :
    generate_noise ⟨false, ""⟩ 0 2 false [5, 5] =
      Except.error DPError.assertionFailed ∧
    generate_noise ⟨false, ""⟩ 1 2 false [5, 5] = Except.ok [5, 5] ∧
    generate_noise ⟨true, "without_noise"⟩ 1 2 false [5, 5] =
      Except.ok (List.replicate 2 0) ∧
    generate_noise ⟨true, "one_as_noise"⟩ 1 2 false [5, 5] =
      Except.ok (List.replicate 2 1) :=
  ⟨(generate_noise_zero_std_fatal ⟨false, ""⟩ 0 2 [5, 5]).1 rfl,
    (generate_noise_zero_std_fatal ⟨false, ""⟩ 1 2 [5, 5]).2.1 rfl (by norm_num),
    (generate_noise_zero_std_fatal ⟨true, "without_noise"⟩ 1 2 [5, 5]).2.2.1
      rfl (Or.inl rfl) (by norm_num),
    (generate_noise_zero_std_fatal ⟨true, "one_as_noise"⟩ 1 2 [5, 5]).2.2.2
      rfl rfl (by norm_num)⟩

instance : Inhabited Param := ⟨⟨none, none, none, false⟩⟩

/-- C10: `zero_grad` behaves identically for any `set_to_none` argument
(it is forced to `True`), always sets `p.grad` to `None`, leaves
`p.grad_sample` untouched in every mode other than MODE_DPSGD_B, and
clears `p.summed_grad` exactly when the last step was not skipped. -/
theorem zero_grad_frame (mode : Mode) (setToNone : Bool) (s : DriverState)
    (i : ℕ) (hi : i < s.params.length) :
    zero_grad mode setToNone s = zero_grad mode true s ∧
    ((zero_grad mode setToNone s).params.getD i default).grad = none ∧
    (mode ≠ Mode.DPSGD_B →
      ((zero_grad mode setToNone s).params.getD i default).gradSample =
        (s.params.getD i default).gradSample) ∧
    ((zero_grad mode setToNone s).params.getD i default).summedGrad =
      (if s.isLastStepSkipped then (s.params.getD i default).summedGrad
        else none) := by
  have hprm : ∀ j : ℕ, j < s.params.length →
      (zero_grad mode setToNone s).params.getD j default =
        { s.params.getD j default with
          gradSample := if mode = Mode.DPSGD_B then none
            else (s.params.getD j default).gradSample,
          summedGrad := if s.isLastStepSkipped
            then (s.params.getD j default).summedGrad else none,
          grad := none } := by
    intro j hj
    unfold zero_grad
    exact getD_map_lt _ _ _ hj _ _
  refine ⟨rfl, ?_, ?_, ?_⟩
  · rw [hprm i hi]
  · intro hmode
    rw [hprm i hi]
    simp [hmode]
  · rw [hprm i hi]

/-- Witness for C10 in MODE_LAZYDP on a one-parameter state with a
populated gradient record and a non-skipped last step. -/
theorem zero_grad_frame_witness :
    zero_grad Mode.LAZYDP false
        ⟨[⟨some [(1, true)], some (2, false), some 3, true⟩], [], false⟩ =
      zero_grad Mode.LAZYDP true
        ⟨[⟨some [(1, true)], some (2, false), some 3, true⟩], [], false⟩ ∧
    ((zero_grad Mode.LAZYDP false
        ⟨[⟨some [(1, true)], some (2, false), some 3, true⟩], [], false⟩).params.getD
          0 default).grad = none ∧
    (Mode.LAZYDP ≠ Mode.DPSGD_B →
      ((zero_grad Mode.LAZYDP false
          ⟨[⟨some [(1, true)], some (2, false), some 3, true⟩], [], false⟩).params.getD
            0 default).gradSample =
        ((⟨[⟨some [(1, true)], some (2, false), some 3, true⟩], [], false⟩ :
            DriverState).params.getD 0 default).gradSample) ∧
    ((zero_grad Mode.LAZYDP false
        ⟨[⟨some [(1, true)], some (2, false), some 3, true⟩], [], false⟩).params.getD
          0 default).summedGrad =
      (if (⟨[⟨some [(1, true)], some (2, false), some 3, true⟩], [], false⟩ :
          DriverState).isLastStepSkipped
        then ((⟨[⟨some [(1, true)], some (2, false), some 3, true⟩], [], false⟩ :
            DriverState).params.getD 0 default).summedGrad
        else none) :=
  zero_grad_frame Mode.LAZYDP false
    ⟨[⟨some [(1, true)], some (2, false), some 3, true⟩], [], false⟩ 0
    (by decide)

/-- C4 counterexample: in MODE_LAZYDP, `clip_and_accumulate` on a
parameter whose gradient tensors are all marked processed (both the
`grad_sample` batch and `summed_grad` carry `_processed`) succeeds
without raising — the "Gradients haven't been cleared" ValueError is not
raised in every DP-SGD mode. -/
theorem clip_no_processed_guard_outside_B :
    clip_and_accumulate Mode.LAZYDP [1] [2]
        [⟨some [(1, true)], some (1, true), none, false⟩] =
      Except.ok [⟨some [(1, true)], some (2, false), none, false⟩] := rfl

/-- C4 amended: calling `clip_and_accumulate` on already-processed
gradients without an intervening `zero_grad` raises the "Gradients
haven't been cleared" ValueError in MODE_DPSGD_B only; in the
re-backward modes (DPSGD_R, DPSGD_F, LAZYDP, EANA) `clip_and_accumulate`
performs no processed-flag check and always succeeds — there the
processed-flag guard is applied by `add_noise` to `p.summed_grad`. -/
theorem clip_processed_guard_only_in_B (clipFactors backwardGrads : List ℚ)
    (p : Param) (rest : List Param) (ts : List (ℚ × Bool))
    (hgs : p.gradSample = some ts) (hproc : ts.any (fun t => t.2) = true) :
    clip_and_accumulate Mode.DPSGD_B clipFactors backwardGrads (p :: rest) =
      Except.error DPError.gradientsNotCleared ∧
    (∀ mode : Mode, mode ≠ Mode.DPSGD_B → ∀ ps : List Param,
      ∃ ps', clip_and_accumulate mode clipFactors backwardGrads ps =
        Except.ok ps') ∧
    (∀ (mode : Mode) (n : ℚ) (ns : List ℚ) (q : Param) (qs : List Param)
      (v : ℚ), q.summedGrad = some (v, true) →
      add_noise mode (n :: ns) (q :: qs) =
        Except.error DPError.gradientsNotCleared) := by
  refine ⟨?_, ?_, ?_⟩
  · unfold clip_and_accumulate
    simp only [List.mapM_cons, hgs, hproc, if_true]
    rfl
  · intro mode hmode ps
    cases mode with
    | DPSGD_B => exact absurd rfl hmode
    | DPSGD_R => exact ⟨_, rfl⟩
    | DPSGD_F => exact ⟨_, rfl⟩
    | LAZYDP => exact ⟨_, rfl⟩
    | EANA => exact ⟨_, rfl⟩
  · intro mode n ns q qs v hsg
    unfold add_noise
    rw [List.zip_cons_cons, List.mapM_cons, hsg]
    rfl

/-- Witness for the amended C4 at a concrete processed parameter. -/
theorem clip_processed_guard_only_in_B_witness :
    (⟨some [(1, true)], none, none, false⟩ : Param).gradSample =
      some [(1, true)] ∧
    clip_and_accumulate Mode.DPSGD_B [1] [2]
        [⟨some [(1, true)], none, none, false⟩] =
      Except.error DPError.gradientsNotCleared :=
  ⟨rfl,
    (clip_processed_guard_only_in_B [1] [2]
      ⟨some [(1, true)], none, none, false⟩ [] [(1, true)] rfl rfl).1⟩

/-- C6 counterexample: the spec's skip/accumulate scenario in
MODE_LAZYDP.  Step 1 (skip signalled `True`) clips gradient 1 into
`summed_grad`; `zero_grad` honours the skip flag and keeps it; but step
2 (skip `False`, gradient 2) overwrites `summed_grad` with 2 instead of
accumulating to `1 + 2 = 3`: the final `summed_grad` is `2 ≠ 3`. -/
theorem skip_steps_do_not_accumulate :
    pre_step Mode.LAZYDP [1] [1] [0]
        (signal_skip_step false (signal_skip_step true
          ⟨[⟨none, none, none, false⟩], [], false⟩)) =
      Except.ok (⟨[⟨none, some (1, false), none, false⟩], [false], true⟩,
        false) ∧
    zero_grad Mode.LAZYDP true
        ⟨[⟨none, some (1, false), none, false⟩], [false], true⟩ =
      ⟨[⟨none, some (1, false), none, false⟩], [false], true⟩ ∧
    pre_step Mode.LAZYDP [1] [2] [0]
        ⟨[⟨none, some (1, false), none, false⟩], [false], true⟩ =
      Except.ok (⟨[⟨none, some (2, true), some (2 + 0), false⟩], [], false⟩,
        true) ∧
    (2 : ℚ) + 0 ≠ 1 + 2 :=
  ⟨rfl, rfl, rfl, by norm_num⟩

/-- C6 amended: between two steps with skip signalled `True` then
`False`, `zero_grad` leaves `p.summed_grad` unchanged (it clears only
the per-sample gradients), but the second step's `clip_and_accumulate`
does not add to it: in the re-backward modes (R, F, LazyDP, EANA) it
overwrites `p.summed_grad` with the second step's clipped gradient
alone, and in MODE_DPSGD_B it fails the `assert False, "Exclude RNNs"`
after `p.summed_grad += grad`. -/
theorem zero_grad_keeps_summed_but_clip_overwrites (mode : Mode)
    (hm : mode ≠ Mode.DPSGD_B) (b : Bool) (s : DriverState)
    (hskip : s.isLastStepSkipped = true) (i : ℕ)
    (hi : i < s.params.length) (cf bg : List ℚ) (hbg : i < bg.length) :
    ((zero_grad mode b s).params.getD i default).summedGrad =
      (s.params.getD i default).summedGrad ∧
    (∃ ps', clip_and_accumulate mode cf bg (zero_grad mode b s).params =
        Except.ok ps' ∧
      (ps'.getD i default).summedGrad = some (bg.getD i 0, false)) ∧
    (∀ (cf2 bg2 : List ℚ) (p : Param) (qs : List Param)
      (ts : List (ℚ × Bool)) (sg : ℚ × Bool), p.gradSample = some ts →
      ts.any (fun t => t.2) = false → p.summedGrad = some sg →
      clip_and_accumulate Mode.DPSGD_B cf2 bg2 (p :: qs) =
        Except.error DPError.excludeRNNs) := by
  have hlen : (zero_grad mode b s).params.length = s.params.length := by
    unfold zero_grad
    exact List.length_map _ _
  refine ⟨?_, ?_, ?_⟩
  · unfold zero_grad
    rw [getD_map_lt _ _ _ hi _ default]
    simp [hskip]
  · have hclip : clip_and_accumulate mode cf bg (zero_grad mode b s).params =
        Except.ok (((zero_grad mode b s).params.zip bg).map (fun q =>
          { q.1 with summedGrad := some (q.2, false), grad := none })) := by
      cases mode with
      | DPSGD_B => exact absurd rfl hm
      | DPSGD_R => rfl
      | DPSGD_F => rfl
      | LAZYDP => rfl
      | EANA => rfl
    refine ⟨_, hclip, ?_⟩
    have hzi : i < ((zero_grad mode b s).params.zip bg).length := by
      rw [List.length_zip, hlen]
      exact lt_min hi hbg
    rw [getD_map_lt _ _ _ hzi _ ((zero_grad mode b s).params.getD i default,
      bg.getD i 0)]
    rw [List.getD_eq_getElem _ _ hzi, List.getElem_zip]
    rw [List.getD_eq_getElem bg 0 hbg]
  · intro cf2 bg2 p qs ts sg hgs hnoproc hsg
    unfold clip_and_accumulate
    simp only [List.mapM_cons, hgs, hnoproc, hsg, Bool.false_eq_true,
      if_false]
    rfl

/-- Witness for the amended C6 at the scenario state after the skipped
first step (`summed_grad = 1`, second-step gradient 2). -/
theorem zero_grad_keeps_summed_but_clip_overwrites_witness :
    (((zero_grad Mode.LAZYDP true
        ⟨[⟨none, some (1, false), none, false⟩], [false], true⟩).params.getD
          0 default).summedGrad =
      (((⟨[⟨none, some (1, false), none, false⟩], [false], true⟩ :
          DriverState).params.getD 0 default).summedGrad)) ∧
    (∃ ps', clip_and_accumulate Mode.LAZYDP [1] [2]
        (zero_grad Mode.LAZYDP true
          ⟨[⟨none, some (1, false), none, false⟩], [false], true⟩).params =
        Except.ok ps' ∧
      (ps'.getD 0 default).summedGrad = some (([2] : List ℚ).getD 0 0, false)) :=
  ⟨(zero_grad_keeps_summed_but_clip_overwrites Mode.LAZYDP (by decide) true
      ⟨[⟨none, some (1, false), none, false⟩], [false], true⟩ rfl 0
      (by decide) [1] [2] (by decide)).1,
    (zero_grad_keeps_summed_but_clip_overwrites Mode.LAZYDP (by decide) true
      ⟨[⟨none, some (1, false), none, false⟩], [false], true⟩ rfl 0
      (by decide) [1] [2] (by decide)).2.1⟩

/-- C7 counterexample: with `lS_i_nxt = None`, `do_delayed_noise_update`
still coalesces the raw real-gradient sparse tensor before storing it in
`p.grad`, so a raw tensor with duplicate indices is not used unchanged:
`[(0, 1), (0, 1)]` becomes `[(0, 2)]`. -/
theorem raw_grad_coalesced_when_no_next_rows :
    do_delayed_noise_update_table 1 (none : Option (List ℕ)) ([] : List ℚ)
        [(0, (1 : ℚ)), (0, (1 : ℚ))] = [(0, 1 + (1 + 0))] ∧
    ([(0, (1 : ℚ) + (1 + 0))] : List (ℕ × ℚ)) ≠ [(0, 1), (0, 1)] :=
  ⟨rfl, by simp⟩

/-- C7 amended: in LazyDP mode with `lS_i_nxt = None`,
`set_emb_to_noise_update` returns without computing any delayed-noise
variance, `do_delayed_noise_update` generates no noise (its result does
not depend on any noise draw), and each embedding parameter's `p.grad`
becomes the coalesced form of its raw real-gradient sparse tensor —
equal to the raw tensor in per-row totals, with duplicate indices
merged. -/
theorem no_next_rows_skips_noise (noise_multiplier max_grad_norm : ℝ)
    (s : LazyState) (h : s.lSiNxt = none) {M : Type} [AddCommMonoid M]
    (numRows : ℕ) (raw : List (ℕ × M)) (noise noiseOther : List M) (r : ℕ)
    (hr : r < numRows) (hp : raw.any (fun x => x.1 = r) = true) :
    set_emb_to_noise_update noise_multiplier max_grad_norm s = s ∧
    do_delayed_noise_update_table numRows none noise raw =
      coalesce numRows raw ∧
    do_delayed_noise_update_table numRows none noise raw =
      do_delayed_noise_update_table numRows none noiseOther raw ∧
    entry (do_delayed_noise_update_table numRows none noise raw) r =
      some (rowTotal raw r) := by
  refine ⟨?_, rfl, rfl, ?_⟩
  · unfold set_emb_to_noise_update
    rw [h]
  · unfold do_delayed_noise_update_table
    exact entry_coalesce _ _ _ hr hp

/-- Witness for the amended C7: two duplicate contributions to row 0
coalesce to their sum while no std vector is produced. -/
theorem no_next_rows_skips_noise_witness :
    set_emb_to_noise_update 1 1 ⟨0, [[0]], none, []⟩ = ⟨0, [[0]], none, []⟩ ∧
    entry (do_delayed_noise_update_table 1 (none : Option (List ℕ))
        ([] : List ℚ) [(0, (1 : ℚ)), (0, (1 : ℚ))]) 0 =
      some (rowTotal [(0, (1 : ℚ)), (0, (1 : ℚ))] 0) :=
  ⟨(no_next_rows_skips_noise 1 1 ⟨0, [[0]], none, []⟩ rfl 1
      [(0, (1 : ℚ)), (0, (1 : ℚ))] [] [] 0 (by decide) (by decide)).1,
    (no_next_rows_skips_noise 1 1 ⟨0, [[0]], none, []⟩ rfl 1
      [(0, (1 : ℚ)), (0, (1 : ℚ))] [] [] 0 (by decide) (by decide)).2.2.2⟩

/-- C8 counterexample: `accumulated_iterations` starts with
`return 1  # No exceptions in this research`, so querying it on
parameters whose `grad_sample` lists have inconsistent lengths (1 batch
versus 2 batches) returns 1 instead of raising the "Number of
accumulated steps is inconsistent across parameters" ValueError. -/
theorem inconsistent_accumulation_not_detected :
    accumulated_iterations
        [⟨some [(1, false)], none, none, false⟩,
          ⟨some [(1, false), (2, false)], none, none, false⟩] =
      Except.ok 1 := rfl

/-- C8 amended: `accumulated_iterations` returns 1 unconditionally for
every parameter list — the consistency check placed after its early
`return 1` is unreachable, although that dead code would flag the
inconsistent input. -/
theorem accumulated_iterations_always_one (ps : List Param) :
    accumulated_iterations ps = Except.ok 1 ∧
    accumulated_iterations ps ≠ Except.error DPError.inconsistentSteps ∧
    accumulated_iterations_unreachable
        [⟨some [(1, false)], none, none, false⟩,
          ⟨some [(1, false), (2, false)], none, none, false⟩] =
      Except.error DPError.inconsistentSteps := by
  refine ⟨rfl, by simp [accumulated_iterations], rfl⟩

end LazyDP
